import Mathlib

/-!
# Verification of the danp/mapmyride fetch-and-reconcile core

A shallow embedding of the Go sources of `github.com/danp/mapmyride`:

* `client.go` — `Client.GetWorkouts`, `Client.getMonthWorkoutsForRange`,
  `Client.fillWorkout`, `Client.fillMainData`, `Client.fillGainData`,
  `months`, `toDate`;
* `cmd/mapmyride-sync/main.go` — `DB.sync`, `DB.removeExtra` and the
  persisted schema.

Modelling conventions:

* `time.Time` instants are modelled by `GoTime`, a civil UTC date-time
  record; `Before`/`After` on instants in a single zone coincide with
  lexicographic comparison of the normalized fields.
* `time.Duration` is an `Int` count of nanoseconds, exactly as in Go.
* Go `float64` payload values (distances, speeds, elapsed seconds, ...)
  are modelled as exact rationals `Rat`.
* Machine integers are unbounded `Int`; no quantity in this program
  approaches 64-bit overflow.
* Fallible Go code returns `Outcome`, which distinguishes a returned
  `error` from a runtime panic (the program can index a slice out of
  range, which is a crash, not an error return).
* The network is an `Env` of response-producing functions; transport
  failures, non-200 statuses and JSON/HTML decode failures of the raw
  bytes are folded into the `Outcome` each `Env` field returns.
* The SQL store is a record of five row lists; one SQL statement is one
  pure state update, and the transaction/rollback contract of the SQL
  engine is modelled by discarding the transaction state on error.
-/

set_option autoImplicit false

namespace Mapmyride

/-! ## Time model: `time.Time` as a civil UTC date-time -/

/-- Model of a Go `time.Time` instant, held in UTC civil form.
Fields mirror `t.Date()` and `t.Clock()` plus nanoseconds. -/
structure GoTime where
  year : Int
  month : Int
  day : Int
  hour : Int
  minute : Int
  second : Int
  nsec : Int
deriving DecidableEq, Repr

/-- Go's zero `time.Time`: January 1, year 1, 00:00:00 UTC. -/
def GoTime.zero : GoTime := ⟨1, 1, 1, 0, 0, 0, 0⟩

/-- `a.Before(b)`: instant comparison.  For UTC civil date-times this is
lexicographic comparison of the fields. -/
def GoTime.before (a b : GoTime) : Bool :=
  if a.year < b.year then true else if b.year < a.year then false
  else if a.month < b.month then true else if b.month < a.month then false
  else if a.day < b.day then true else if b.day < a.day then false
  else if a.hour < b.hour then true else if b.hour < a.hour then false
  else if a.minute < b.minute then true else if b.minute < a.minute then false
  else if a.second < b.second then true else if b.second < a.second then false
  else decide (a.nsec < b.nsec)

/-- `a.After(b)` is `b.Before(a)`. -/
def GoTime.after (a b : GoTime) : Bool := GoTime.before b a

/-- `a ≤ b` on instants, i.e. `!b.Before(a)`, i.e. `!a.After(b)`. -/
def GoTime.le (a b : GoTime) : Bool := !(GoTime.before b a)

/-- `toDate` from client.go: truncate an instant to midnight UTC of its
calendar day (`time.Date(y, m, d, 0, 0, 0, 0, time.UTC)`). -/
def toDate (t : GoTime) : GoTime := ⟨t.year, t.month, t.day, 0, 0, 0, 0⟩

/-! ## `months` from client.go

`months` only ever manipulates first-of-month midnight UTC instants:
`norm(t) = time.Date(t.Year(), t.Month(), 1, 0, 0, 0, 0, time.UTC)` and
`cur.AddDate(0, 1, 0)` on such an instant.  A first-of-month instant is
in bijection with its month index `year*12 + (month-1) : Int`, Go's
`time.Date` month normalization is exactly floor division by 12, and
`Before` on two first-of-month instants is `<` on month indices.  The
loop is therefore carried on month indices. -/

/-- The month index of `time.Date(t.Year(), t.Month(), 1, ...)`. -/
def monthKey (t : GoTime) : Int := t.year * 12 + (t.month - 1)

/-- The first-of-month midnight UTC instant with the given month index;
Go's `time.Date` month normalization (its `norm` helper) is floor
division, so `fdiv`/`fmod` reproduce it for every `Int` month field. -/
def firstOfMonth (key : Int) : GoTime :=
  ⟨key.fdiv 12, key.fmod 12 + 1, 1, 0, 0, 0, 0⟩

/-- The loop body of `months`: while `cur.Before(end)`, advance by one
month (`AddDate(0, 1, 0)`, i.e. key + 1) and append. -/
def monthsLoop (cur e : Int) : List GoTime :=
  if cur < e then firstOfMonth (cur + 1) :: monthsLoop (cur + 1) e
  else []
termination_by (e - cur).toNat
decreasing_by omega

/-- `months(begin, end)` from client.go: normalize both ends to the
first of their month, then walk forward one month at a time while
`cur.Before(end)`, collecting every stop (the start point included). -/
def months (b e : GoTime) : List GoTime :=
  let cur := monthKey b
  let e2 := monthKey e
  firstOfMonth cur :: monthsLoop cur e2

/-! ## String utilities: `strconv.Atoi`, `strings.Split`,
`strings.TrimSpace`, `time.ParseInLocation("01/02/2006", ...)` -/

/-- Numeric value of an ASCII digit. -/
def digitVal (c : Char) : Int := (c.toNat : Int) - 48

/-- `strconv.Atoi`: an optional single leading sign followed by one or
more ASCII digits; anything else is a syntax error.  (Go additionally
errors on 64-bit overflow; no id or gain in this program approaches
that, so values are unbounded here.) -/
def atoi (s : String) : Except String Int :=
  let cs := s.toList
  let signed : Bool × List Char :=
    match cs with
    | '-' :: rest => (true, rest)
    | '+' :: rest => (false, rest)
    | _ => (false, cs)
  match signed with
  | (neg, digits) =>
    if digits.isEmpty || !(digits.all Char.isDigit) then
      .error ("strconv.Atoi: parsing " ++ s ++ ": invalid syntax")
    else
      let n : Int := digits.foldl (fun acc c => acc * 10 + digitVal c) 0
      .ok (if neg then -n else n)

/-- Helper for `splitSlash`: accumulates the current segment reversed. -/
def splitSlashAux : List Char → List Char → List String
  | [], acc => [String.mk acc.reverse]
  | '/' :: rest, acc => String.mk acc.reverse :: splitSlashAux rest []
  | c :: rest, acc => splitSlashAux rest (c :: acc)

/-- `strings.Split(s, "/")`: always at least one segment; the empty
string splits to `[""]`. -/
def splitSlash (s : String) : List String := splitSlashAux s.toList []

/-- Whitespace as trimmed by `strings.TrimSpace` (the ASCII cases, plus
NEL and NBSP; the provider's pages only ever contain ASCII spacing). -/
def isSpaceChar (c : Char) : Bool :=
  c = ' ' || c = '\t' || c = '\n' || c = (Char.ofNat 11) || c = (Char.ofNat 12) ||
  c = '\r' || c = (Char.ofNat 0x85) || c = (Char.ofNat 0xA0)

/-- `strings.TrimSpace`: drop leading and trailing whitespace. -/
def trimSpace (s : String) : String :=
  String.mk (((s.toList.dropWhile isSpaceChar).reverse.dropWhile isSpaceChar).reverse)

/-- Leap-year rule used by Go's date validation. -/
def isLeap (y : Int) : Bool := y % 4 = 0 && (y % 100 ≠ 0 || y % 400 = 0)

/-- Days in a month, as validated by Go's `time.Parse`. -/
def daysIn (y m : Int) : Int :=
  if m = 2 then (if isLeap y then 29 else 28)
  else if m = 4 || m = 6 || m = 9 || m = 11 then 30
  else 31

/-- `time.ParseInLocation("01/02/2006", s, time.UTC)`: exactly
two-digit month, two-digit day and four-digit year separated by `/`,
with month and day-of-month range validation; the result is midnight
UTC of that day. -/
def parseDate (s : String) : Except String GoTime :=
  match s.toList with
  | [m1, m2, '/', d1, d2, '/', y1, y2, y3, y4] =>
    if [m1, m2, d1, d2, y1, y2, y3, y4].all Char.isDigit then
      let month := digitVal m1 * 10 + digitVal m2
      let day := digitVal d1 * 10 + digitVal d2
      let year := digitVal y1 * 1000 + digitVal y2 * 100 + digitVal y3 * 10 + digitVal y4
      if month < 1 || 12 < month then .error ("parsing time " ++ s ++ ": month out of range")
      else if day < 1 || daysIn year month < day then .error ("parsing time " ++ s ++ ": day out of range")
      else .ok ⟨year, month, day, 0, 0, 0, 0⟩
    else .error ("parsing time " ++ s ++ " as 01/02/2006: cannot parse")
  | _ => .error ("parsing time " ++ s ++ " as 01/02/2006: cannot parse")

/-! ## Exact numeric conversions -/

/-- Truncation of a rational toward zero, the effect of Go's
float-to-integer conversion on an exactly represented value. -/
def truncQ (q : Rat) : Int := q.num.tdiv (q.den : Int)

/-- `time.Duration(s*1000) * time.Millisecond` for fractional seconds
`s`: multiply by 1000, truncate to whole milliseconds, scale to
nanoseconds. -/
def msNs (s : Rat) : Int := truncQ (s * 1000) * 1000000

/-- `d.Seconds()` for a nanosecond duration, as an exact rational. -/
def secondsOf (ns : Int) : Rat := (ns : Rat) / 1000000000

/-! ## The workout data model (client.go) -/

/-- `WorkoutDistance`: elapsed duration (ns) and cumulative meters. -/
structure WorkoutDistance where
  elapsed : Int
  total : Rat
deriving DecidableEq, Repr

/-- `WorkoutPosition`: elapsed duration (ns), elevation, lat, lng. -/
structure WorkoutPosition where
  elapsed : Int
  elevation : Rat
  lat : Rat
  lng : Rat
deriving DecidableEq, Repr

/-- `WorkoutSpeed`: elapsed duration (ns) and meters per second. -/
structure WorkoutSpeed where
  elapsed : Int
  metersPerSecond : Rat
deriving DecidableEq, Repr

/-- `WorkoutStep`: elapsed duration (ns) and steps in the period. -/
structure WorkoutStep where
  elapsed : Int
  stepsInPeriod : Rat
deriving DecidableEq, Repr

/-- `Workout` from client.go.  `activityType` is the extra field that
`DB.sync` in the later revision of cmd/mapmyride-sync reads
(`w.ActivityType`); the client never sets it, leaving the zero value. -/
structure Workout where
  id : Int
  name : String
  kind : String
  activityType : String
  kcal : Int
  distance : Rat
  speed : Rat
  duration : Int
  stepCount : Int
  gain : Int
  startedAt : GoTime
  createdAt : GoTime
  updatedAt : GoTime
  distances : List WorkoutDistance
  positions : List WorkoutPosition
  speeds : List WorkoutSpeed
  steps : List WorkoutStep
deriving DecidableEq, Repr

/-! ## Outcomes: error returns versus panics -/

/-- Result of running a fallible Go function: a value, a returned
`error`, or a runtime panic (which crashes the program instead of
returning). -/
inductive Outcome (α : Type) where
  | ok : α → Outcome α
  | err : String → Outcome α
  | panicked : String → Outcome α
deriving DecidableEq, Repr

/-- Whether an outcome is a returned (non-panic) error. -/
def Outcome.isRetErr {α : Type} : Outcome α → Bool
  | .err _ => true
  | _ => false

/-! ## The remote service (§6 of the spec), as seen by the client

Each field covers one endpoint.  Transport errors, non-200 statuses and
failures to decode the raw body into the wire shape are all folded into
the returned `Outcome`, since client.go turns each of them into an
error return before touching the payload. -/

/-- One entry of the dashboard listing
(`workout_data.workouts.<date>[i]`), with `steps` and `time` kept as the
raw JSON bytes they arrive as (`json.RawMessage`). -/
structure DashEntry where
  name : String
  date : String
  activityShortName : String
  distance : Rat
  energy : Int
  speed : Rat
  steps : String
  time : String
  viewURL : String
deriving DecidableEq, Repr

/-- Second component of a decoded time-series pair: a JSON number or a
position object carrying elevation/lat/lng. -/
inductive RawElem where
  | num : Rat → RawElem
  | obj : Rat → Rat → Rat → RawElem
deriving DecidableEq, Repr

/-- One `[elapsed, value]` pair of a time-series array. -/
structure RawPair where
  elapsed : Rat
  val : RawElem
deriving DecidableEq, Repr

/-- The detail endpoint's decoded body: three timestamps plus the named
time-series blocks in iteration order. -/
structure DetailResp where
  createdAt : GoTime
  startedAt : GoTime
  updatedAt : GoTime
  timeseries : List (String × List RawPair)
deriving DecidableEq, Repr

/-- The gain page reduced to what `fillGainData` inspects: `none` when
the `#workout_elevation_data` anchor row is absent, otherwise the text
of the row's first `th` and of its `td > span` at index 0 (goquery's
`Text()` of an empty selection is `""`). -/
structure AnchorRow where
  firstTh : String
  tdSpan0 : String
deriving DecidableEq, Repr

/-- The remote service: dashboard listing by year and month, detail by
workout id, gain page by workout id. -/
structure Env where
  dashboard : Int → Int → Outcome (List DashEntry)
  detail : Int → Outcome DetailResp
  gainPage : Int → Outcome (Option AnchorRow)

/-! ## `Client.fillGainData` -/

/-- The body of `fillGainData` after the page fetch, acting on the
anchor row (or its absence). -/
def processGainPage (page : Option AnchorRow) (wk : Workout) : Outcome Workout :=
  match page with
  | none => .ok wk
  | some row =>
    if row.firstTh ≠ "Gain" then
      .err ("unable to detect gain for workout " ++ toString wk.id)
    else
      let gains := trimSpace row.tdSpan0
      if gains = "" || gains = "--" then .ok wk
      else
        match atoi gains with
        | .error e => .err e
        | .ok gain => .ok { wk with gain := gain }

/-- `Client.fillGainData`: fetch the rendered workout page and extract
the elevation gain. -/
def fillGainData (env : Env) (wk : Workout) : Outcome Workout :=
  match env.gainPage wk.id with
  | .err e => .err e
  | .panicked p => .panicked p
  | .ok page => processGainPage page wk

/-! ## `Client.fillMainData` -/

/-- Unmarshal a raw series into `[][2]float64`: every second component
must be a JSON number. -/
def decodeNumPairs : List RawPair → Except String (List (Rat × Rat))
  | [] => .ok []
  | ⟨s, .num v⟩ :: rest =>
    match decodeNumPairs rest with
    | .error e => .error e
    | .ok ps => .ok ((s, v) :: ps)
  | ⟨_, .obj _ _ _⟩ :: _ => .error "json: cannot unmarshal object into Go value of type float64"

/-- Unmarshal a raw series elementwise as `[2]json.RawMessage` with the
second component a `WorkoutPosition` object and the first a number. -/
def decodePosPairs : List RawPair → Except String (List (Rat × Rat × Rat × Rat))
  | [] => .ok []
  | ⟨s, .obj el lat lng⟩ :: rest =>
    match decodePosPairs rest with
    | .error e => .error e
    | .ok ps => .ok ((s, el, lat, lng) :: ps)
  | ⟨_, .num _⟩ :: _ => .error "json: cannot unmarshal number into Go value of type mapmyride.WorkoutPosition"

/-- One arm of the `switch k` over time-series names: decode the block
and append the converted samples; unknown names are ignored. -/
def fillSeries (k : String) (v : List RawPair) (wk : Workout) : Outcome Workout :=
  if k = "distance" then
    match decodeNumPairs v with
    | .error e => .err e
    | .ok rds =>
      .ok { wk with distances :=
        wk.distances ++ rds.map (fun p => ⟨msNs p.1, p.2⟩) }
  else if k = "position" then
    match decodePosPairs v with
    | .error e => .err e
    | .ok rps =>
      .ok { wk with positions :=
        wk.positions ++ rps.map (fun p => ⟨msNs p.1, p.2.1, p.2.2.1, p.2.2.2⟩) }
  else if k = "speed" then
    match decodeNumPairs v with
    | .error e => .err e
    | .ok rss =>
      .ok { wk with speeds :=
        wk.speeds ++ rss.map (fun p => ⟨msNs p.1, p.2⟩) }
  else if k = "steps" then
    match decodeNumPairs v with
    | .error e => .err e
    | .ok rss =>
      .ok { wk with steps :=
        wk.steps ++ rss.map (fun p => ⟨msNs p.1, p.2⟩) }
  else .ok wk

/-- The `for k, v := range rawresp.Timeseries` loop. -/
def fillAllSeries (wk : Workout) : List (String × List RawPair) → Outcome Workout
  | [] => .ok wk
  | (k, v) :: rest =>
    match fillSeries k v wk with
    | .err e => .err e
    | .panicked p => .panicked p
    | .ok wk2 => fillAllSeries wk2 rest

/-- `Client.fillMainData`: fetch the detail endpoint, copy the three
timestamps, then decode each recognized time-series block. -/
def fillMainData (env : Env) (wk : Workout) : Outcome Workout :=
  match env.detail wk.id with
  | .err e => .err e
  | .panicked p => .panicked p
  | .ok resp =>
    let wk2 := { wk with
      createdAt := resp.createdAt
      startedAt := resp.startedAt
      updatedAt := resp.updatedAt }
    fillAllSeries wk2 resp.timeseries

/-- `Client.fillWorkout`: the errgroup runs `fillMainData` and
`fillGainData` concurrently against one workout; they write disjoint
fields, so the merged result equals running main then gain, and on
failure the first error is returned.  Modelled sequentially. -/
def fillWorkout (env : Env) (wk : Workout) : Outcome Workout :=
  match fillMainData env wk with
  | .err e => .err e
  | .panicked p => .panicked p
  | .ok wk2 => fillGainData env wk2

/-! ## `Client.getMonthWorkoutsForRange` -/

/-- The summary `Workout` built from a dashboard entry with extracted
id: dashboard distance is kilometers and is scaled by 1000; `steps` and
`time` are set only when their raw bytes parse as integers (`time` in
seconds). -/
def summaryOf (id : Int) (rw : DashEntry) : Workout :=
  { id := id
    name := rw.name
    kind := rw.activityShortName
    activityType := ""
    kcal := rw.energy
    distance := rw.distance * 1000
    speed := rw.speed
    duration := (match atoi rw.time with | .ok i => i * 1000000000 | .error _ => 0)
    stepCount := (match atoi rw.steps with | .ok i => i | .error _ => 0)
    gain := 0
    startedAt := GoTime.zero
    createdAt := GoTime.zero
    updatedAt := GoTime.zero
    distances := []
    positions := []
    speeds := []
    steps := [] }

/-- Handling of one dashboard entry inside the listing loop: parse the
date, re-check the `(year, month)` bucket, apply the date-only range
pre-filter, then extract the id from `strings.Split(view_url, "/")[2]`
— an index expression that panics when fewer than three segments exist
— and build the summary `Workout`.  `none` means the entry was filtered
out (`continue`). -/
def parseDashEntry (year month : Int) (beginDate endDate : GoTime) (rw : DashEntry) :
    Outcome (Option Workout) :=
  match parseDate rw.date with
  | .error e => .err ("converting " ++ rw.date ++ " to date: " ++ e)
  | .ok dt =>
    if !(dt.year = year && dt.month = month) then .ok none
    else if dt.before beginDate || dt.after endDate then .ok none
    else
      match (splitSlash rw.viewURL)[2]? with
      | none => .panicked "runtime error: index out of range"
      | some seg =>
        match atoi seg with
        | .error e => .err ("converting " ++ rw.viewURL ++ " to id: " ++ e)
        | .ok id => .ok (some (summaryOf id rw))

/-- The collection loop over the month's dashboard entries. -/
def collectEntries (year month : Int) (beginDate endDate : GoTime) :
    List DashEntry → Outcome (List Workout)
  | [] => .ok []
  | rw :: rest =>
    match parseDashEntry year month beginDate endDate rw with
    | .err e => .err e
    | .panicked p => .panicked p
    | .ok none => collectEntries year month beginDate endDate rest
    | .ok (some wk) =>
      match collectEntries year month beginDate endDate rest with
      | .err e => .err e
      | .panicked p => .panicked p
      | .ok ws => .ok (wk :: ws)

/-- `Client.getMonthWorkoutsForRange`: fetch the month's dashboard and
turn the surviving entries into summary workouts. -/
def getMonthWorkoutsForRange (env : Env) (year month : Int) (beginDate endDate : GoTime) :
    Outcome (List Workout) :=
  match env.dashboard year month with
  | .err e => .err e
  | .panicked p => .panicked p
  | .ok entries => collectEntries year month beginDate endDate entries

/-! ## `Client.GetWorkouts` -/

/-- The precise range filter of `GetWorkouts`: a workout survives
unless `wk.StartedAt.Before(begin) || wk.StartedAt.After(end)`. -/
def keepWorkout (b e : GoTime) (wk : Workout) : Bool :=
  !(wk.startedAt.before b || wk.startedAt.after e)

/-- The per-month inner loop: enrich each summary, then apply the
precise started-at range filter. -/
def enrichFilter (env : Env) (b e : GoTime) : List Workout → Outcome (List Workout)
  | [] => .ok []
  | wk :: rest =>
    match fillWorkout env wk with
    | .err msg => .err msg
    | .panicked p => .panicked p
    | .ok wk2 =>
      match enrichFilter env b e rest with
      | .err msg => .err msg
      | .panicked p => .panicked p
      | .ok ws => .ok (if keepWorkout b e wk2 then wk2 :: ws else ws)

/-- The month-bucket loop of `GetWorkouts`, accumulating per-month
results in order. -/
def getWorkoutsLoop (env : Env) (b e beginDate endDate : GoTime) :
    List GoTime → Outcome (List Workout)
  | [] => .ok []
  | m :: ms =>
    match getMonthWorkoutsForRange env m.year m.month beginDate endDate with
    | .err msg => .err msg
    | .panicked p => .panicked p
    | .ok mwks =>
      match enrichFilter env b e mwks with
      | .err msg => .err msg
      | .panicked p => .panicked p
      | .ok here =>
        match getWorkoutsLoop env b e beginDate endDate ms with
        | .err msg => .err msg
        | .panicked p => .panicked p
        | .ok rest => .ok (here ++ rest)

/-- Insertion step of the final `sort.Slice` by `StartedAt`. -/
def insertByStartedAt (w : Workout) : List Workout → List Workout
  | [] => [w]
  | x :: xs =>
    if w.startedAt.before x.startedAt then w :: x :: xs
    else x :: insertByStartedAt w xs

/-- The final `sort.Slice(workouts, ...StartedAt.Before...)`; the
sorting algorithm itself is unspecified, any permutation achieving the
order is faithful. -/
def sortByStartedAt : List Workout → List Workout
  | [] => []
  | w :: ws => insertByStartedAt w (sortByStartedAt ws)

/-- `Client.GetWorkouts(ctx, begin, end)`. -/
def getWorkouts (env : Env) (b e : GoTime) : Outcome (List Workout) :=
  let beginDate := toDate b
  let endDate := toDate e
  match getWorkoutsLoop env b e beginDate endDate (months b e) with
  | .err msg => .err msg
  | .panicked p => .panicked p
  | .ok ws => .ok (sortByStartedAt ws)

/-! ## The persisted store (cmd/mapmyride-sync)

One row type per table of `DB.init`.  `started_at` and friends are
stored through a zone-annotated text format that preserves the instant,
so they are carried as `GoTime` directly; numeric columns keep the
exact rationals. -/

/-- A row of `workouts`. -/
structure WorkoutRow where
  id : Int
  userName : String
  name : String
  kind : String
  activityType : String
  kcal : Int
  distanceM : Rat
  speedMps : Rat
  durationS : Int
  stepCount : Int
  gainM : Int
  startedAt : GoTime
  createdAt : GoTime
  updatedAt : GoTime
deriving DecidableEq, Repr

/-- A row of `workout_distances`. -/
structure DistanceRow where
  workoutId : Int
  elapsedSeconds : Rat
  totalMeters : Rat
deriving DecidableEq, Repr

/-- A row of `workout_positions`. -/
structure PositionRow where
  workoutId : Int
  elapsedSeconds : Rat
  elevation : Rat
  lat : Rat
  lng : Rat
deriving DecidableEq, Repr

/-- A row of `workout_speeds`. -/
structure SpeedRow where
  workoutId : Int
  elapsedSeconds : Rat
  metersPerSecond : Rat
deriving DecidableEq, Repr

/-- A row of `workout_steps`. -/
structure StepRow where
  workoutId : Int
  elapsedSeconds : Rat
  steps : Rat
deriving DecidableEq, Repr

/-- The five tables, each in insertion order. -/
structure DBState where
  workouts : List WorkoutRow
  distances : List DistanceRow
  positions : List PositionRow
  speeds : List SpeedRow
  steps : List StepRow
deriving DecidableEq, Repr

/-- The empty database. -/
def DBState.empty : DBState := ⟨[], [], [], [], []⟩

/-! ## `DB.sync`

Every `ExecContext` inside the transaction is one pure state update;
updates are numbered in execution order, and an oracle names the
statements that fail (a SQL error at statement `i`), the statement
after the last being `Commit`.  `runStmts` executes the statements
against the transaction snapshot; `sync` then commits the snapshot or,
on any error, rolls back — the deferred `tx.Rollback()` discards every
uncommitted change, so the visible state is the pre-call one. -/

/-- Execute numbered statements on the transaction state, failing where
the oracle says the SQL engine fails. -/
def runStmts (fail : Nat → Bool) : Nat → List (DBState → DBState) → DBState →
    Except String (Nat × DBState)
  | i, [], tx => .ok (i, tx)
  | i, f :: fs, tx =>
    if fail i then .error ("exec failed at statement " ++ toString i)
    else runStmts fail (i + 1) fs (f tx)

/-- The parent row inserted by `DB.sync`: `duration_s` is
`int(w.Duration.Seconds())`, a truncation to whole seconds. -/
def workoutRow (userName : String) (w : Workout) : WorkoutRow :=
  { id := w.id, userName := userName, name := w.name, kind := w.kind,
    activityType := w.activityType, kcal := w.kcal, distanceM := w.distance,
    speedMps := w.speed, durationS := w.duration.tdiv 1000000000,
    stepCount := w.stepCount, gainM := w.gain,
    startedAt := w.startedAt, createdAt := w.createdAt, updatedAt := w.updatedAt }

/-- The statements of `DB.sync`'s transaction, in source order: delete
the child rows table by table (`workout_steps`, `workout_speeds`,
`workout_positions`, `workout_distances`), delete the parent row,
insert the new parent row, then insert each sample row. -/
def syncStmts (userName : String) (w : Workout) : List (DBState → DBState) :=
  [fun db => { db with steps := db.steps.filter (fun r => r.workoutId ≠ w.id) },
   fun db => { db with speeds := db.speeds.filter (fun r => r.workoutId ≠ w.id) },
   fun db => { db with positions := db.positions.filter (fun r => r.workoutId ≠ w.id) },
   fun db => { db with distances := db.distances.filter (fun r => r.workoutId ≠ w.id) },
   fun db => { db with workouts := db.workouts.filter (fun r => r.id ≠ w.id) },
   fun db => { db with workouts := db.workouts ++ [workoutRow userName w] }]
  ++ w.distances.map (fun d => fun db =>
      { db with distances := db.distances ++ [⟨w.id, secondsOf d.elapsed, d.total⟩] })
  ++ w.positions.map (fun p => fun db =>
      { db with positions := db.positions ++ [⟨w.id, secondsOf p.elapsed, p.elevation, p.lat, p.lng⟩] })
  ++ w.speeds.map (fun s => fun db =>
      { db with speeds := db.speeds ++ [⟨w.id, secondsOf s.elapsed, s.metersPerSecond⟩] })
  ++ w.steps.map (fun s => fun db =>
      { db with steps := db.steps ++ [⟨w.id, secondsOf s.elapsed, s.stepsInPeriod⟩] })

/-- `DB.sync(ctx, userName, w)`: run the transaction's statements and
commit, or roll back on the first error.  Returns the call's result and
the visible database state afterwards. -/
def sync (fail : Nat → Bool) (userName : String) (w : Workout) (db : DBState) :
    Except String Unit × DBState :=
  match runStmts fail 0 (syncStmts userName w) db with
  | .error e => (.error e, db)
  | .ok (i, tx) =>
    if fail i then (.error "commit failed", db) else (.ok (), tx)

/-- The oracle under which every SQL statement succeeds. -/
def noFail : Nat → Bool := fun _ => false

/-! ## `DB.removeExtra` -/

/-- The `WHERE` clause of `removeExtra`'s single delete:
`started_at >= begin and started_at <= end and user_name = u and
id not in (ids)`.  SQLite accepts an empty `IN ()` list, which matches
nothing, so an empty fetch deletes every row of the user in range. -/
def removeExtraPred (userName : String) (b e : GoTime) (ids : List Int)
    (r : WorkoutRow) : Bool :=
  GoTime.le b r.startedAt && GoTime.le r.startedAt e &&
    r.userName = userName && !(ids.contains r.id)

/-- `DB.removeExtra(ctx, userName, begin, end, workouts)`: one set
difference delete against the parent table only. -/
def removeExtra (userName : String) (b e : GoTime) (workouts : List Workout)
    (db : DBState) : DBState :=
  let ids := workouts.map (fun w => w.id)
  { db with
    workouts := db.workouts.filter (fun r => !(removeExtraPred userName b e ids r)) }

/-- Modelled from the spec: the repository has no read-back query (only
`latestWorkoutStartedAt`), but §8 of the spec states the round-trip
property "upserting a workout then reading it back yields identical
parent fields and identical ordered sample sequences".  This reader
reconstructs a `Workout` from the stored representation of an id: the
parent row's columns (duration re-scaled from the whole-second
`duration_s` column) and the child rows in stored order, each elapsed
offset re-scaled from its `elapsed_seconds` column. -/
def readWorkout (id : Int) (db : DBState) : Option Workout :=
  (db.workouts.find? (fun r => r.id = id)).map (fun r =>
    { id := r.id, name := r.name, kind := r.kind,
      activityType := r.activityType, kcal := r.kcal,
      distance := r.distanceM, speed := r.speedMps,
      duration := r.durationS * 1000000000,
      stepCount := r.stepCount, gain := r.gainM,
      startedAt := r.startedAt, createdAt := r.createdAt, updatedAt := r.updatedAt,
      distances := (db.distances.filter (fun c => c.workoutId = id)).map
        (fun c => ⟨truncQ (c.elapsedSeconds * 1000000000), c.totalMeters⟩),
      positions := (db.positions.filter (fun c => c.workoutId = id)).map
        (fun c => ⟨truncQ (c.elapsedSeconds * 1000000000), c.elevation, c.lat, c.lng⟩),
      speeds := (db.speeds.filter (fun c => c.workoutId = id)).map
        (fun c => ⟨truncQ (c.elapsedSeconds * 1000000000), c.metersPerSecond⟩),
      steps := (db.steps.filter (fun c => c.workoutId = id)).map
        (fun c => ⟨truncQ (c.elapsedSeconds * 1000000000), c.steps⟩) })

/-! ## Derived forms and accessors used by the statements -/

/-- The net effect of a successful `DB.sync` transaction on the store:
replace the parent row of `w.id` and all its child sample rows. -/
def syncResult (userName : String) (w : Workout) (db : DBState) : DBState :=
  { workouts := db.workouts.filter (fun r => r.id ≠ w.id) ++ [workoutRow userName w],
    distances := db.distances.filter (fun r => r.workoutId ≠ w.id) ++
      w.distances.map (fun d => ⟨w.id, secondsOf d.elapsed, d.total⟩),
    positions := db.positions.filter (fun r => r.workoutId ≠ w.id) ++
      w.positions.map (fun p => ⟨w.id, secondsOf p.elapsed, p.elevation, p.lat, p.lng⟩),
    speeds := db.speeds.filter (fun r => r.workoutId ≠ w.id) ++
      w.speeds.map (fun s => ⟨w.id, secondsOf s.elapsed, s.metersPerSecond⟩),
    steps := db.steps.filter (fun r => r.workoutId ≠ w.id) ++
      w.steps.map (fun s => ⟨w.id, secondsOf s.elapsed, s.stepsInPeriod⟩) }

/-- The oracle under which every SQL statement fails. -/
def failAll : Nat → Bool := fun _ => true

/-- Numeric payload of a series element (zero for a position object;
only applied on paths where the element is known to be a number). -/
def RawElem.numVal : RawElem → Rat
  | .num q => q
  | .obj _ _ _ => 0

/-- Elevation of a position object (zero for a number). -/
def RawElem.elevVal : RawElem → Rat
  | .num _ => 0
  | .obj el _ _ => el

/-- Latitude of a position object (zero for a number). -/
def RawElem.latVal : RawElem → Rat
  | .num _ => 0
  | .obj _ lat _ => lat

/-- Longitude of a position object (zero for a number). -/
def RawElem.lngVal : RawElem → Rat
  | .num _ => 0
  | .obj _ _ lng => lng

/-- The ids of a successful listing result, `none` otherwise. -/
def Outcome.idsOf : Outcome (List Workout) → Option (List Int)
  | .ok ws => some (ws.map (fun w => w.id))
  | .err _ => none
  | .panicked _ => none

/-! ## Concrete instances used to exercise the theorems -/

/-- A concrete workout with a whole-hour duration. -/
def wSample : Workout :=
  { id := 1, name := "morning ride", kind := "ride", activityType := "",
    kcal := 2, distance := 5, speed := 3, duration := 3600000000000,
    stepCount := 0, gain := 0,
    startedAt := ⟨2020, 3, 10, 7, 0, 0, 0⟩,
    createdAt := GoTime.zero, updatedAt := GoTime.zero,
    distances := [⟨1024000000, 5⟩], positions := [], speeds := [], steps := [] }

/-- A workout whose duration is one and a half seconds. -/
def wHalf : Workout := { wSample with id := 9, duration := 1500000000 }

/-- A gain page whose anchor row reads Gain with a padded value. -/
def envGain : Env :=
  { dashboard := fun _ _ => .ok [],
    detail := fun _ => .err "unused",
    gainPage := fun _ => .ok (some ⟨"Gain", "   10  "⟩) }

/-- begin of the multi-month example: 2010-11-05. -/
def bNov : GoTime := ⟨2010, 11, 5, 0, 0, 0, 0⟩

/-- end of the multi-month example: 2011-04-01. -/
def eApr : GoTime := ⟨2011, 4, 1, 0, 0, 0, 0⟩

/-- A detail response with one pair in each of the four series; the
distance and position pairs carry the fractional elapsed 1.0245 s. -/
def respSeries : DetailResp :=
  { createdAt := ⟨2020, 3, 10, 6, 0, 0, 0⟩,
    startedAt := ⟨2020, 3, 10, 7, 0, 0, 0⟩,
    updatedAt := ⟨2020, 3, 10, 8, 0, 0, 0⟩,
    timeseries :=
      [("distance", [⟨(2049 : Rat)/2000, .num 5⟩]),
       ("position", [⟨(2049 : Rat)/2000, .obj 10 44 (-75)⟩]),
       ("speed", [⟨1, .num 3⟩]),
       ("steps", [⟨(3 : Rat)/2, .num 7⟩])] }

/-- A summary workout as `getMonthWorkoutsForRange` would build it. -/
def wkSummary : Workout :=
  { id := 5, name := "x", kind := "ride", activityType := "",
    kcal := 10, distance := 1000, speed := 2, duration := 3600000000000,
    stepCount := 0, gain := 0,
    startedAt := GoTime.zero, createdAt := GoTime.zero, updatedAt := GoTime.zero,
    distances := [], positions := [], speeds := [], steps := [] }

/-- A service whose detail endpoint serves `respSeries` for id 5. -/
def envSeries : Env :=
  { dashboard := fun _ _ => .ok [],
    detail := fun id => if id = 5 then .ok respSeries else .err "not found",
    gainPage := fun _ => .ok none }

/-- The workout `fillMainData` produces from `wkSummary` and
`respSeries`. -/
def wSeriesFilled : Workout :=
  { wkSummary with
    startedAt := ⟨2020, 3, 10, 7, 0, 0, 0⟩,
    createdAt := ⟨2020, 3, 10, 6, 0, 0, 0⟩,
    updatedAt := ⟨2020, 3, 10, 8, 0, 0, 0⟩,
    distances := [⟨1024000000, 5⟩],
    positions := [⟨1024000000, 10, 44, -75⟩],
    speeds := [⟨1000000000, 3⟩],
    steps := [⟨1500000000, 7⟩] }

/-- A dashboard entry whose view_url has a single segment. -/
def entryBadURL : DashEntry :=
  { name := "x", date := "03/05/2020", activityShortName := "ride",
    distance := 1, energy := 10, speed := 2, steps := "", time := "3600",
    viewURL := "oops" }

/-- The same entry with the well-formed view_url `/workout/77`. -/
def entryGoodURL : DashEntry := { entryBadURL with viewURL := "/workout/77" }

/-- Midnight of 2020-03-05, the date of the two entries above. -/
def dMar : GoTime := ⟨2020, 3, 5, 0, 0, 0, 0⟩

/-- A service listing only `entryBadURL` for 2020-03. -/
def envBadURL : Env :=
  { dashboard := fun y m => if y = 2020 && m = 3 then .ok [entryBadURL] else .ok [],
    detail := fun _ => .err "unused",
    gainPage := fun _ => .ok none }

/-- A service listing only `entryGoodURL` for 2020-03. -/
def envGoodURL : Env :=
  { dashboard := fun y m => if y = 2020 && m = 3 then .ok [entryGoodURL] else .ok [],
    detail := fun _ => .err "unused",
    gainPage := fun _ => .ok none }

/-- A detail response without time series, for the end-to-end run. -/
def respPlain : DetailResp :=
  { createdAt := ⟨2020, 3, 9, 6, 0, 0, 0⟩,
    startedAt := ⟨2020, 3, 10, 7, 0, 0, 0⟩,
    updatedAt := ⟨2020, 3, 10, 8, 0, 0, 0⟩,
    timeseries := [] }

/-- A dashboard entry for the end-to-end run, dated 2020-03-10. -/
def entryRun : DashEntry :=
  { name := "run day", date := "03/10/2020", activityShortName := "run",
    distance := 1, energy := 10, speed := 2, steps := "", time := "3600",
    viewURL := "/workout/5" }

/-- A full service for the end-to-end `GetWorkouts` run. -/
def envRun : Env :=
  { dashboard := fun y m => if y = 2020 && m = 3 then .ok [entryRun] else .ok [],
    detail := fun id => if id = 5 then .ok respPlain else .err "not found",
    gainPage := fun _ => .ok none }

/-- begin of the end-to-end run: midnight 2020-03-10. -/
def bRun : GoTime := ⟨2020, 3, 10, 0, 0, 0, 0⟩

/-- end of the end-to-end run: midnight 2020-03-11. -/
def eRun : GoTime := ⟨2020, 3, 11, 0, 0, 0, 0⟩

/-- The workout the end-to-end run returns (fields written exactly as
the pipeline computes them, so the run evaluates definitionally). -/
def wRun : Workout :=
  { id := 5, name := "run day", kind := "run", activityType := "",
    kcal := 10, distance := (1 : Rat) * 1000, speed := 2,
    duration := 3600 * 1000000000,
    stepCount := 0, gain := 0,
    startedAt := ⟨2020, 3, 10, 7, 0, 0, 0⟩,
    createdAt := ⟨2020, 3, 9, 6, 0, 0, 0⟩,
    updatedAt := ⟨2020, 3, 10, 8, 0, 0, 0⟩,
    distances := [], positions := [], speeds := [], steps := [] }

/-! # Lemmas -/

/-- An instant is not before itself. -/
theorem GoTime.before_self (t : GoTime) : GoTime.before t t = false := by
  simp [GoTime.before]

/-- Scaling exact `Seconds()` back to nanoseconds recovers the
duration. -/
theorem truncQ_secondsOf (n : Int) : truncQ (secondsOf n * 1000000000) = n := by
  have h : secondsOf n * 1000000000 = (n : Rat) := by
    unfold secondsOf
    field_simp
  rw [h]
  unfold truncQ
  rw [Rat.num_intCast, Rat.den_intCast]
  simp

/-! ## C10: removeExtra touches only the parent table -/

/-- C10: `removeExtra` deletes rows only from the parent `workouts`
table; the four child sample tables are untouched, so the sample rows
of a deleted parent remain stored as orphans. -/
theorem removeExtra_children_unchanged (userName : String) (b e : GoTime)
    (ws : List Workout) (db : DBState) :
    (removeExtra userName b e ws db).distances = db.distances ∧
    (removeExtra userName b e ws db).positions = db.positions ∧
    (removeExtra userName b e ws db).speeds = db.speeds ∧
    (removeExtra userName b e ws db).steps = db.steps :=
  ⟨rfl, rfl, rfl, rfl⟩

/-! ## C2: removeExtra deletes exactly the stale rows of the user -/

/-- C2: for `begin ≤ end`, `removeExtra(u, begin, end, ws)` deletes
exactly the stored parent rows whose user is `u`, whose `started_at`
lies in `[begin, end]`, and whose id is not among the ids of `ws`
(the empty `ws` included); every other parent row stays. -/
theorem removeExtra_deletes_exactly (userName : String) (b e : GoTime)
    (ws : List Workout) (db : DBState) (hbe : GoTime.le b e = true) :
    ∀ r : WorkoutRow, r ∈ (removeExtra userName b e ws db).workouts ↔
      r ∈ db.workouts ∧
        ¬(r.userName = userName ∧ GoTime.le b r.startedAt = true ∧
          GoTime.le r.startedAt e = true ∧ r.id ∉ ws.map (fun w => w.id)) := by
  intro r
  simp only [removeExtra, List.mem_filter, Bool.not_eq_true', removeExtraPred]
  constructor
  · rintro ⟨hmem, hpred⟩
    refine ⟨hmem, fun hc => ?_⟩
    rcases hc with ⟨hu, hb, he, hid⟩
    simp [hu, hb, he, List.elem_iff, hid] at hpred
  · rintro ⟨hmem, hpred⟩
    refine ⟨hmem, ?_⟩
    by_contra hc
    rw [Bool.not_eq_false] at hc
    simp only [Bool.and_eq_true, Bool.not_eq_true', decide_eq_true_eq] at hc
    rcases hc with ⟨⟨⟨hb, he⟩, hu⟩, hid⟩
    exact hpred ⟨hu, hb, he, by simpa [List.elem_iff] using hid⟩

/-- C2 witness at a concrete instance: stored workouts 1, 2, 3 of user
u started inside the range, workout 4 outside it; the fetch returns
ids 1 and 2; row 3 is gone, rows 1, 2 and 4 stay. -/
theorem removeExtra_deletes_exactly_witness :
    GoTime.le bRun eRun = true ∧
    ¬(⟨3, "u", "c", "ride", "", 0, 0, 0, 0, 0, 0, ⟨2020, 3, 10, 9, 0, 0, 0⟩,
        GoTime.zero, GoTime.zero⟩ : WorkoutRow) ∈
      (removeExtra "u" bRun eRun [wRun, { wRun with id := 2 }]
        ⟨[⟨5, "u", "a", "ride", "", 0, 0, 0, 0, 0, 0, ⟨2020, 3, 10, 7, 0, 0, 0⟩,
            GoTime.zero, GoTime.zero⟩,
          ⟨2, "u", "b", "ride", "", 0, 0, 0, 0, 0, 0, ⟨2020, 3, 10, 8, 0, 0, 0⟩,
            GoTime.zero, GoTime.zero⟩,
          ⟨3, "u", "c", "ride", "", 0, 0, 0, 0, 0, 0, ⟨2020, 3, 10, 9, 0, 0, 0⟩,
            GoTime.zero, GoTime.zero⟩,
          ⟨4, "u", "d", "ride", "", 0, 0, 0, 0, 0, 0, ⟨2020, 4, 1, 9, 0, 0, 0⟩,
            GoTime.zero, GoTime.zero⟩], [], [], [], []⟩).workouts := by
  refine ⟨by decide, ?_⟩
  rw [removeExtra_deletes_exactly "u" bRun eRun _ _ (by decide)]
  decide

/-! ## C4: a failing sync leaves the store untouched -/

/-- C4: whichever statement of the transaction fails — a child delete,
the parent delete, an insert, or the commit — `sync` returns an error
and the visible store is exactly the pre-call store. -/
theorem sync_error_rolls_back (fail : Nat → Bool) (userName : String)
    (w : Workout) (db : DBState) (msg : String)
    (herr : (sync fail userName w db).1 = .error msg) :
    (sync fail userName w db).2 = db := by
  unfold sync at herr ⊢
  cases hr : runStmts fail 0 (syncStmts userName w) db with
  | error e => rfl
  | ok p =>
    obtain ⟨i, tx⟩ := p
    rw [hr] at herr
    by_cases hc : fail i = true
    · simp [hc]
    · simp [hc] at herr

/-- C4 witness: with the SQL engine failing every statement, `sync`
reports an error and the empty store stays empty. -/
theorem sync_error_rolls_back_witness :
    (sync failAll "u" wSample DBState.empty).1 =
      .error "exec failed at statement 0" ∧
    (sync failAll "u" wSample DBState.empty).2 = DBState.empty :=
  ⟨rfl, sync_error_rolls_back failAll "u" wSample DBState.empty
    "exec failed at statement 0" rfl⟩

/-! ## The successful transaction in closed form -/

/-- With no SQL failure, `runStmts` folds the statements over the
transaction state. -/
theorem runStmts_noFail (fs : List (DBState → DBState)) :
    ∀ (i : Nat) (tx : DBState),
      runStmts noFail i fs tx = .ok (i + fs.length, fs.foldl (fun s f => f s) tx) := by
  induction fs with
  | nil => intro i tx; simp [runStmts]
  | cons f fs ih =>
    intro i tx
    simp [runStmts, noFail, ih (i + 1) (f tx)]
    omega

/-- Folding the distance-insert statements appends the rows. -/
theorem foldl_insert_distances (w : Workout) :
    ∀ (ds : List WorkoutDistance) (db : DBState),
      (ds.map (fun d => fun db =>
        { db with distances := db.distances ++ [⟨w.id, secondsOf d.elapsed, d.total⟩] }
        )).foldl (fun s f => f s) db
      = { db with distances := db.distances ++
            ds.map (fun d => ⟨w.id, secondsOf d.elapsed, d.total⟩) } := by
  intro ds
  induction ds with
  | nil => intro db; simp
  | cons d ds ih => intro db; simp [ih]

/-- Folding the position-insert statements appends the rows. -/
theorem foldl_insert_positions (w : Workout) :
    ∀ (ps : List WorkoutPosition) (db : DBState),
      (ps.map (fun p => fun db =>
        { db with positions := db.positions ++ [⟨w.id, secondsOf p.elapsed, p.elevation, p.lat, p.lng⟩] }
        )).foldl (fun s f => f s) db
      = { db with positions := db.positions ++
            ps.map (fun p => ⟨w.id, secondsOf p.elapsed, p.elevation, p.lat, p.lng⟩) } := by
  intro ps
  induction ps with
  | nil => intro db; simp
  | cons p ps ih => intro db; simp [ih]

/-- Folding the speed-insert statements appends the rows. -/
theorem foldl_insert_speeds (w : Workout) :
    ∀ (ss : List WorkoutSpeed) (db : DBState),
      (ss.map (fun s => fun db =>
        { db with speeds := db.speeds ++ [⟨w.id, secondsOf s.elapsed, s.metersPerSecond⟩] }
        )).foldl (fun s f => f s) db
      = { db with speeds := db.speeds ++
            ss.map (fun s => ⟨w.id, secondsOf s.elapsed, s.metersPerSecond⟩) } := by
  intro ss
  induction ss with
  | nil => intro db; simp
  | cons s ss ih => intro db; simp [ih]

/-- Folding the step-insert statements appends the rows. -/
theorem foldl_insert_steps (w : Workout) :
    ∀ (ss : List WorkoutStep) (db : DBState),
      (ss.map (fun s => fun db =>
        { db with steps := db.steps ++ [⟨w.id, secondsOf s.elapsed, s.stepsInPeriod⟩] }
        )).foldl (fun s f => f s) db
      = { db with steps := db.steps ++
            ss.map (fun s => ⟨w.id, secondsOf s.elapsed, s.stepsInPeriod⟩) } := by
  intro ss
  induction ss with
  | nil => intro db; simp
  | cons s ss ih => intro db; simp [ih]

/-- A successful `sync` commits and its net effect is `syncResult`. -/
theorem sync_noFail_eq (userName : String) (w : Workout) (db : DBState) :
    sync noFail userName w db = (.ok (), syncResult userName w db) := by
  unfold sync
  rw [runStmts_noFail]
  simp only [noFail, if_false, Bool.false_eq_true]
  congr 1
  unfold syncStmts
  simp only [List.foldl_append, List.foldl_cons, List.foldl_nil]
  rw [foldl_insert_distances, foldl_insert_positions, foldl_insert_speeds,
    foldl_insert_steps]
  rfl

/-! ## C3: sync is idempotent -/

/-- C3: for every user, workout and starting store, running the upsert
`sync` twice in succession returns the same result and leaves the five
tables identical to the state after running it once. -/
theorem sync_idempotent (userName : String) (w : Workout) (db : DBState) :
    sync noFail userName w ((sync noFail userName w db).2) =
      sync noFail userName w db := by
  rw [sync_noFail_eq userName w db, sync_noFail_eq userName w]
  refine congrArg (Prod.mk (Except.ok ())) ?_
  show syncResult userName w (syncResult userName w db) = syncResult userName w db
  unfold syncResult
  simp only []
  congr 1 <;>
    simp [workoutRow, List.filter_append, List.filter_filter, List.filter_map,
      Function.comp_def]

/-! ## C5: upsert round-trip -/

/-- C5 counterexample: the claim fails as stated.  A workout whose
duration is one and a half seconds (`wHalf`) reads back with duration
one second — `duration_s` stores `int(w.Duration.Seconds())`, a
truncation to whole seconds. -/
theorem sync_roundtrip_counterexample :
    Option.map (fun w => w.duration)
        (readWorkout 9 ((sync noFail "u" wHalf DBState.empty).2)) =
      some 1000000000 ∧
    wHalf.duration = 1500000000 ∧
    readWorkout 9 ((sync noFail "u" wHalf DBState.empty).2) ≠ some wHalf := by
  refine ⟨by decide, by decide, by decide⟩

/-- C5 as amended: for a workout whose duration is a whole number of
seconds (as every fetched workout's is — the dashboard supplies whole
seconds), upserting via `sync` and reading the stored representation
back yields a workout identical to the original: all parent fields,
and the four sample sequences in order with elapsed offsets intact. -/
theorem sync_roundtrip (userName : String) (w : Workout) (db : DBState)
    (hdur : (1000000000 : Int) ∣ w.duration) :
    readWorkout w.id ((sync noFail userName w db).2) = some w := by
  rw [sync_noFail_eq]
  have hfind : List.find? (fun r => r.id = w.id)
      (db.workouts.filter (fun r => r.id ≠ w.id) ++ [workoutRow userName w]) =
      some (workoutRow userName w) := by
    rw [List.find?_append]
    have h1 : List.find? (fun r => r.id = w.id)
        (db.workouts.filter (fun r => r.id ≠ w.id)) = none := by
      rw [List.find?_eq_none]
      intro x hx
      have hne := (List.mem_filter.mp hx).2
      simpa using hne
    rw [h1]
    simp [List.find?, workoutRow]
  simp only [readWorkout, syncResult] at *
  rw [hfind]
  obtain ⟨k, hk⟩ := hdur
  simp only [Option.map_some, workoutRow, Option.some.injEq]
  simp only [List.filter_append, List.filter_filter, List.filter_map,
    Function.comp_def]
  rw [hk]
  simp [Option.map_some, Option.some.injEq,
    List.map_map, Function.comp_def, truncQ_secondsOf, decide_not,
    Int.mul_tdiv_cancel_left _ (by norm_num : (1000000000 : Int) ≠ 0),
    mul_comm]
  have h2 : k * 1000000000 = w.duration := by omega
  rw [h2]

/-- C5 witness: the whole-hour workout `wSample` round-trips through
the store unchanged. -/
theorem sync_roundtrip_witness :
    readWorkout wSample.id ((sync noFail "u" wSample DBState.empty).2) =
      some wSample :=
  sync_roundtrip "u" wSample DBState.empty ⟨3600, rfl⟩

/-! ## C6: gain extraction from the rendered page -/

/-- C6: for a workout with zero gain so far: an absent anchor row is a
success leaving gain at 0; a present anchor whose first header is not
Gain is an error; a Gain header with blank or `--` cell text is a
success leaving gain at 0; a Gain header whose trimmed cell text parses
as an integer n sets gain to n; any other cell text is an error. -/
theorem fillGainData_cases (env : Env) (wk : Workout) (row : AnchorRow)
    (h0 : wk.gain = 0) :
    (env.gainPage wk.id = .ok none → fillGainData env wk = .ok wk ∧ wk.gain = 0) ∧
    (env.gainPage wk.id = .ok (some row) →
      (row.firstTh ≠ "Gain" → (fillGainData env wk).isRetErr = true) ∧
      (row.firstTh = "Gain" →
        ((trimSpace row.tdSpan0 = "" ∨ trimSpace row.tdSpan0 = "--") →
          fillGainData env wk = .ok wk ∧ wk.gain = 0) ∧
        (∀ n : Int, atoi (trimSpace row.tdSpan0) = .ok n →
          fillGainData env wk = .ok { wk with gain := n }) ∧
        (∀ msg : String, trimSpace row.tdSpan0 ≠ "" → trimSpace row.tdSpan0 ≠ "--" →
          atoi (trimSpace row.tdSpan0) = .error msg →
          (fillGainData env wk).isRetErr = true))) := by
  constructor
  · intro hnone
    rw [fillGainData, hnone]
    exact ⟨rfl, h0⟩
  · intro hsome
    rw [fillGainData, hsome]
    constructor
    · intro hth
      simp [processGainPage, hth, Outcome.isRetErr]
    · intro hth
      refine ⟨?_, ?_, ?_⟩
      · intro hblank
        rcases hblank with hb | hb <;> simp [processGainPage, hth, hb, h0]
      · intro n hn
        by_cases hb1 : trimSpace row.tdSpan0 = ""
        · rw [hb1] at hn; exact absurd hn (by simp [atoi])
        · by_cases hb2 : trimSpace row.tdSpan0 = "--"
          · rw [hb2] at hn; exact absurd hn (by simp [atoi])
          · simp [processGainPage, hth, hb1, hb2, hn]
      · intro msg hb1 hb2 herr
        simp [processGainPage, hth, hb1, hb2, herr, Outcome.isRetErr]

/-- C6 witness: a page whose anchor row reads Gain with the padded
cell text yields gain 10 on a zero-gain workout. -/
theorem fillGainData_cases_witness :
    fillGainData envGain wSample = .ok { wSample with gain := 10 } := by
  have h := fillGainData_cases envGain wSample ⟨"Gain", "   10  "⟩ rfl
  exact ((h.2 rfl).2 rfl).2.1 10 rfl

/-! ## C7: month buckets cover the range -/

/-- The `months` loop walks one month index at a time up to the end
key. -/
theorem monthsLoop_eq (n : Nat) : ∀ cur : Int,
    monthsLoop cur (cur + n) =
      (List.range n).map (fun i : Nat => firstOfMonth (cur + 1 + (i : Int))) := by
  induction n with
  | zero => intro cur; rw [monthsLoop]; simp
  | succ n ih =>
    intro cur
    rw [monthsLoop]
    have hlt : cur < cur + ((n : Int) + 1) := by omega
    have harg : cur + ((n : Int) + 1) = (cur + 1) + (n : Int) := by omega
    push_cast
    rw [if_pos hlt, harg, ih (cur + 1), List.range_succ_eq_map]
    simp only [List.map_cons, List.map_map, Function.comp_def]
    congr 1
    · congr 1
      push_cast
      ring
    · refine List.map_congr_left ?_
      intro i _
      congr 1
      push_cast
      omega

/-- Instant order on `GoTime` implies month-index order for valid
months. -/
theorem monthKey_mono (b e : GoTime) (hbm1 : 1 ≤ b.month) (hbm2 : b.month ≤ 12)
    (hem1 : 1 ≤ e.month) (hem2 : e.month ≤ 12) (hbe : GoTime.le b e = true) :
    monthKey b ≤ monthKey e := by
  unfold GoTime.le at hbe
  rw [Bool.not_eq_true'] at hbe
  unfold GoTime.before at hbe
  unfold monthKey
  by_cases h1 : e.year < b.year
  · rw [if_pos h1] at hbe
    exact absurd hbe (by simp)
  · rw [if_neg h1] at hbe
    by_cases h2 : b.year < e.year
    · omega
    · rw [if_neg h2] at hbe
      by_cases h3 : e.month < b.month
      · rw [if_pos h3] at hbe
        exact absurd hbe (by simp)
      · omega

/-- For a valid month field, `firstOfMonth` of a time's month key is
the first of that time's month. -/
theorem firstOfMonth_monthKey (t : GoTime) (h1 : 1 ≤ t.month) (h2 : t.month ≤ 12) :
    firstOfMonth (monthKey t) = ⟨t.year, t.month, 1, 0, 0, 0, 0⟩ := by
  unfold firstOfMonth monthKey
  rw [Int.fdiv_eq_ediv _ (by norm_num), Int.fmod_eq_emod _ (by norm_num)]
  have hy : (t.year * 12 + (t.month - 1)) / 12 = t.year := by omega
  have hm : (t.year * 12 + (t.month - 1)) % 12 + 1 = t.month := by omega
  rw [hy, hm]

/-- C7: for `begin ≤ end` (months in range), `months` returns the
contiguous ascending list of first-of-month instants whose month keys
run from begin's month to end's month inclusive; the first stop is the
first of begin's month, the last key is end's month, and begin and end
in the same month give exactly the one bucket. -/
theorem months_covering (b e : GoTime) (hbm1 : 1 ≤ b.month) (hbm2 : b.month ≤ 12)
    (hem1 : 1 ≤ e.month) (hem2 : e.month ≤ 12) (hbe : GoTime.le b e = true) :
    months b e = (List.range ((monthKey e - monthKey b).toNat + 1)).map
      (fun i : Nat => firstOfMonth (monthKey b + (i : Int))) ∧
    firstOfMonth (monthKey b) = ⟨b.year, b.month, 1, 0, 0, 0, 0⟩ ∧
    firstOfMonth (monthKey e) = ⟨e.year, e.month, 1, 0, 0, 0, 0⟩ ∧
    (b.year = e.year ∧ b.month = e.month →
      months b e = [⟨b.year, b.month, 1, 0, 0, 0, 0⟩]) := by
  have hmono := monthKey_mono b e hbm1 hbm2 hem1 hem2 hbe
  have hfb := firstOfMonth_monthKey b hbm1 hbm2
  have hfe := firstOfMonth_monthKey e hem1 hem2
  have hkey : monthKey e = monthKey b + ((monthKey e - monthKey b).toNat : Int) := by
    omega
  have hmain : months b e = (List.range ((monthKey e - monthKey b).toNat + 1)).map
      (fun i : Nat => firstOfMonth (monthKey b + (i : Int))) := by
    have hL := monthsLoop_eq (monthKey e - monthKey b).toNat (monthKey b)
    rw [← hkey] at hL
    unfold months
    simp only []
    rw [hL, List.range_succ_eq_map]
    simp only [List.map_cons, List.map_map, Function.comp_def]
    congr 1
    · congr 1
      push_cast
      ring
    · refine List.map_congr_left ?_
      intro i _
      congr 1
      push_cast
      omega
  refine ⟨hmain, hfb, hfe, ?_⟩
  rintro ⟨hy, hm⟩
  have hk : monthKey e = monthKey b := by unfold monthKey; omega
  rw [hmain]
  have hn : (monthKey e - monthKey b).toNat = 0 := by omega
  rw [hn]
  simp only [List.range_succ, List.range_zero, List.nil_append, List.map_cons,
    List.map_nil]
  rw [show monthKey b + ((0 : Nat) : Int) = monthKey b from by push_cast; ring, hfb]

/-- C7 witness: begin 2010-11-05 and end 2011-04-01 cover the six
months 2010-11 through 2011-04, and a same-month pair gives one
bucket. -/
theorem months_covering_witness :
    months bNov eApr =
      [⟨2010, 11, 1, 0, 0, 0, 0⟩, ⟨2010, 12, 1, 0, 0, 0, 0⟩,
       ⟨2011, 1, 1, 0, 0, 0, 0⟩, ⟨2011, 2, 1, 0, 0, 0, 0⟩,
       ⟨2011, 3, 1, 0, 0, 0, 0⟩, ⟨2011, 4, 1, 0, 0, 0, 0⟩] ∧
    months bRun bRun = [⟨2020, 3, 1, 0, 0, 0, 0⟩] := by
  constructor
  · have h := months_covering bNov eApr (by decide) (by decide) (by decide)
      (by decide) (by decide)
    rw [h.1]
    decide
  · have h := months_covering bRun bRun (by decide) (by decide) (by decide)
      (by decide) (by decide)
    exact h.2.2.2 ⟨rfl, rfl⟩

/-! ## C8: elapsed seconds are truncated to whole milliseconds -/

/-- A successful `[][2]float64` decode returns each pair's elapsed and
numeric payload in order. -/
theorem decodeNumPairs_ok_eq : ∀ (l : List RawPair) (ps : List (Rat × Rat)),
    decodeNumPairs l = .ok ps →
    ps = l.map (fun p => (p.elapsed, p.val.numVal)) := by
  intro l
  induction l with
  | nil =>
    intro ps h
    simp [decodeNumPairs] at h
    simp [h]
  | cons p rest ih =>
    intro ps h
    obtain ⟨s, v⟩ := p
    cases v with
    | num q =>
      rw [decodeNumPairs] at h
      cases hr : decodeNumPairs rest with
      | error e => rw [hr] at h; exact absurd h (by simp)
      | ok ps2 =>
        rw [hr] at h
        simp only [Except.ok.injEq] at h
        subst h
        simp [List.map_cons, RawElem.numVal, ih ps2 hr]
    | obj a bq c =>
      rw [decodeNumPairs] at h
      exact absurd h (by simp)

/-- A successful position decode returns each pair's elapsed and the
object's elevation, latitude and longitude in order. -/
theorem decodePosPairs_ok_eq : ∀ (l : List RawPair) (ps : List (Rat × Rat × Rat × Rat)),
    decodePosPairs l = .ok ps →
    ps = l.map (fun p => (p.elapsed, p.val.elevVal, p.val.latVal, p.val.lngVal)) := by
  intro l
  induction l with
  | nil =>
    intro ps h
    simp [decodePosPairs] at h
    simp [h]
  | cons p rest ih =>
    intro ps h
    obtain ⟨s, v⟩ := p
    cases v with
    | num q =>
      rw [decodePosPairs] at h
      exact absurd h (by simp)
    | obj a bq c =>
      rw [decodePosPairs] at h
      cases hr : decodePosPairs rest with
      | error e => rw [hr] at h; exact absurd h (by simp)
      | ok ps2 =>
        rw [hr] at h
        simp only [Except.ok.injEq] at h
        subst h
        simp [List.map_cons, RawElem.elevVal, RawElem.latVal, RawElem.lngVal,
          ih ps2 hr]

/-- C8: when the detail response carries the four series and the merge
succeeds, every decoded sample's elapsed offset is its pair's
fractional seconds multiplied by 1000, truncated to whole milliseconds
and scaled to nanoseconds — for all four series kinds. -/
theorem fillMainData_elapsed_truncated (env : Env) (wk w2 : Workout)
    (resp : DetailResp) (ds ps ss sts : List RawPair)
    (hd : env.detail wk.id = .ok resp)
    (hts : resp.timeseries =
      [("distance", ds), ("position", ps), ("speed", ss), ("steps", sts)])
    (hok : fillMainData env wk = .ok w2) :
    w2.distances = wk.distances ++
      ds.map (fun p => ⟨truncQ (p.elapsed * 1000) * 1000000, p.val.numVal⟩) ∧
    w2.positions = wk.positions ++
      ps.map (fun p => ⟨truncQ (p.elapsed * 1000) * 1000000,
        p.val.elevVal, p.val.latVal, p.val.lngVal⟩) ∧
    w2.speeds = wk.speeds ++
      ss.map (fun p => ⟨truncQ (p.elapsed * 1000) * 1000000, p.val.numVal⟩) ∧
    w2.steps = wk.steps ++
      sts.map (fun p => ⟨truncQ (p.elapsed * 1000) * 1000000, p.val.numVal⟩) := by
  unfold fillMainData at hok
  rw [hd] at hok
  simp only [] at hok
  rw [hts] at hok
  simp only [fillAllSeries, fillSeries] at hok
  simp only [String.reduceEq, reduceIte, if_pos] at hok
  cases hds : decodeNumPairs ds with
  | error e => rw [hds] at hok; simp at hok
  | ok rds =>
  rw [hds] at hok
  simp only [] at hok
  cases hps : decodePosPairs ps with
  | error e => rw [hps] at hok; simp at hok
  | ok rps =>
  rw [hps] at hok
  simp only [] at hok
  cases hss : decodeNumPairs ss with
  | error e => rw [hss] at hok; simp at hok
  | ok rss =>
  rw [hss] at hok
  simp only [] at hok
  cases hsts : decodeNumPairs sts with
  | error e => rw [hsts] at hok; simp at hok
  | ok rsts =>
  rw [hsts] at hok
  simp only [Outcome.ok.injEq] at hok
  subst hok
  rw [decodeNumPairs_ok_eq ds rds hds, decodePosPairs_ok_eq ps rps hps,
    decodeNumPairs_ok_eq ss rss hss, decodeNumPairs_ok_eq sts rsts hsts]
  simp [List.map_map, Function.comp_def, msNs]

/-- 1.0245 s scales to exactly 1024.5 ms and truncates to 1024 ms. -/
theorem truncDistanceVal :
    truncQ (((2049 : Rat)/2000) * 1000) * 1000000 = 1024000000 := by
  have h : ((2049 : Rat)/2000) * 1000 = 2049/2 := by norm_num
  rw [truncQ, h]
  have h1 : ((2049 : Rat)/2).num = 2049 := by norm_num
  have h2 : ((2049 : Rat)/2).den = 2 := by norm_num
  rw [h1, h2]
  decide

/-- 1 s scales to exactly 1000 ms. -/
theorem truncSpeedVal : truncQ ((1 : Rat) * 1000) * 1000000 = 1000000000 := by
  have h : ((1 : Rat)) * 1000 = 1000 := by norm_num
  rw [truncQ, h]
  have h1 : ((1000 : Rat)).num = 1000 := by norm_num
  have h2 : ((1000 : Rat)).den = 1 := by norm_num
  rw [h1, h2]
  decide

/-- 1.5 s scales to exactly 1500 ms. -/
theorem truncStepVal : truncQ (((3 : Rat)/2) * 1000) * 1000000 = 1500000000 := by
  have h : ((3 : Rat)/2) * 1000 = 1500 := by norm_num
  rw [truncQ, h]
  have h1 : ((1500 : Rat)).num = 1500 := by norm_num
  have h2 : ((1500 : Rat)).den = 1 := by norm_num
  rw [h1, h2]
  decide

/-- C8 witness: the concrete response with elapsed 1.0245 s decodes to
1024 ms (1024000000 ns) for the distance pair and 1.5 s to exactly
1500 ms for the steps pair. -/
theorem fillMainData_elapsed_truncated_witness :
    wSeriesFilled.distances = wkSummary.distances ++ [⟨1024000000, 5⟩] ∧
    wSeriesFilled.steps = wkSummary.steps ++ [⟨1500000000, 7⟩] := by
  have hok : fillMainData envSeries wkSummary = .ok wSeriesFilled := by
    unfold fillMainData
    simp only [envSeries, wkSummary, respSeries, reduceIte]
    simp only [fillAllSeries, fillSeries, decodeNumPairs, decodePosPairs,
      String.reduceEq, reduceIte, msNs]
    simp only [List.map_cons, List.map_nil, List.nil_append, truncDistanceVal,
      truncSpeedVal, truncStepVal]
    simp [wSeriesFilled, wkSummary]
  have h := fillMainData_elapsed_truncated envSeries wkSummary wSeriesFilled
    respSeries [⟨(2049 : Rat)/2000, .num 5⟩] [⟨(2049 : Rat)/2000, .obj 10 44 (-75)⟩]
    [⟨1, .num 3⟩] [⟨(3 : Rat)/2, .num 7⟩] rfl rfl hok
  constructor
  · rw [h.1]
    simp [RawElem.numVal, truncDistanceVal]
  · rw [h.2.2.2]
    simp [RawElem.numVal, truncStepVal]

/-! ## C9: identifier extraction from view_url -/

/-- C9 counterexample: the claim fails as stated.  On a dashboard entry
whose view_url `oops` has a single `/`-separated segment, the listing
crashes with an index-out-of-range panic instead of returning an
error. -/
theorem getMonthWorkouts_short_url_counterexample :
    getMonthWorkoutsForRange envBadURL 2020 3 dMar dMar =
      .panicked "runtime error: index out of range" ∧
    Outcome.isRetErr (getMonthWorkoutsForRange envBadURL 2020 3 dMar dMar) = false := by
  constructor
  · decide
  · decide

/-- C9 as amended: for a listed entry surviving the month and date
filters, the workout id is `strconv.Atoi` of the third `/`-separated
segment of view_url: a missing third segment (fewer than three
segments) panics — a crash, not an error return; a non-numeric third
segment returns a hard error; a numeric one becomes the workout's
id. -/
theorem getMonthWorkouts_id_extraction (env : Env) (y m : Int) (bd ed : GoTime)
    (rw0 : DashEntry) (dt : GoTime)
    (hdash : env.dashboard y m = .ok [rw0])
    (hdate : parseDate rw0.date = .ok dt)
    (hy : dt.year = y) (hm : dt.month = m)
    (hbd : dt.before bd = false) (hed : dt.after ed = false) :
    ((splitSlash rw0.viewURL)[2]? = none →
      getMonthWorkoutsForRange env y m bd ed =
        .panicked "runtime error: index out of range") ∧
    (∀ seg msg, (splitSlash rw0.viewURL)[2]? = some seg →
      atoi seg = .error msg →
      getMonthWorkoutsForRange env y m bd ed =
        .err ("converting " ++ rw0.viewURL ++ " to id: " ++ msg)) ∧
    (∀ seg n, (splitSlash rw0.viewURL)[2]? = some seg →
      atoi seg = .ok n →
      ∃ wk, getMonthWorkoutsForRange env y m bd ed = .ok [wk] ∧ wk.id = n) := by
  subst hy hm
  refine ⟨?_, ?_, ?_⟩
  · intro hget
    unfold getMonthWorkoutsForRange
    rw [hdash]
    simp only []
    unfold collectEntries parseDashEntry
    rw [hdate]
    simp [hbd, hed, hget]
  · intro seg msg hget hatoi
    unfold getMonthWorkoutsForRange
    rw [hdash]
    simp only []
    unfold collectEntries parseDashEntry
    rw [hdate]
    simp [hbd, hed, hget, hatoi]
  · intro seg n hget hatoi
    unfold getMonthWorkoutsForRange
    rw [hdash]
    unfold collectEntries parseDashEntry
    rw [hdate]
    refine ⟨summaryOf n rw0, ?_, rfl⟩
    simp [hbd, hed, hget, hatoi, collectEntries]

/-- C9 witness for the amended claim: the entry with view_url
`/workout/77` yields the single workout id 77. -/
theorem getMonthWorkouts_id_extraction_witness :
    Outcome.idsOf (getMonthWorkoutsForRange envGoodURL 2020 3 dMar dMar) =
      some [77] := by
  have h := getMonthWorkouts_id_extraction envGoodURL 2020 3 dMar dMar
    entryGoodURL ⟨2020, 3, 5, 0, 0, 0, 0⟩ rfl rfl rfl rfl (by decide) (by decide)
  obtain ⟨wk, hwk, hid⟩ := h.2.2 "77" 77 rfl rfl
  rw [hwk]
  simp [Outcome.idsOf, hid]

/-! ## C1: GetWorkouts returns exactly the in-range workouts it keeps -/

/-- Insertion for the final sort preserves membership. -/
theorem mem_insertByStartedAt (w a : Workout) : ∀ l : List Workout,
    a ∈ insertByStartedAt w l ↔ a = w ∨ a ∈ l := by
  intro l
  induction l with
  | nil => simp [insertByStartedAt]
  | cons x xs ih =>
    unfold insertByStartedAt
    by_cases hc : w.startedAt.before x.startedAt = true
    · simp [hc]
    · simp [hc, ih]
      tauto

/-- The final sort preserves membership. -/
theorem mem_sortByStartedAt (a : Workout) : ∀ l : List Workout,
    a ∈ sortByStartedAt l ↔ a ∈ l := by
  intro l
  induction l with
  | nil => simp [sortByStartedAt]
  | cons x xs ih =>
    simp [sortByStartedAt, mem_insertByStartedAt, ih]

/-- Every workout surviving the enrichment loop passed the precise
range filter. -/
theorem enrichFilter_keep (env : Env) (b e : GoTime) : ∀ (l out : List Workout),
    enrichFilter env b e l = .ok out →
    ∀ w ∈ out, keepWorkout b e w = true := by
  intro l
  induction l with
  | nil =>
    intro out h w hw
    simp only [enrichFilter, Outcome.ok.injEq] at h
    subst h
    simp at hw
  | cons wk rest ih =>
    intro out h w hw
    rw [enrichFilter] at h
    cases hf : fillWorkout env wk with
    | err m => rw [hf] at h; exact absurd h (by simp)
    | panicked p => rw [hf] at h; exact absurd h (by simp)
    | ok wk2 =>
      rw [hf] at h
      cases hr : enrichFilter env b e rest with
      | err m => rw [hr] at h; exact absurd h (by simp)
      | panicked p => rw [hr] at h; exact absurd h (by simp)
      | ok ws2 =>
        rw [hr] at h
        simp only [Outcome.ok.injEq] at h
        subst h
        by_cases hk : keepWorkout b e wk2 = true
        · rw [if_pos hk] at hw
          rcases List.mem_cons.mp hw with h1 | h1
          · rw [h1]; exact hk
          · exact ih ws2 hr w h1
        · rw [if_neg hk] at hw
          exact ih ws2 hr w hw

/-- Every workout of a successful month-bucket loop passed the precise
range filter. -/
theorem getWorkoutsLoop_keep (env : Env) (b e bd ed : GoTime) :
    ∀ (ms : List GoTime) (out : List Workout),
    getWorkoutsLoop env b e bd ed ms = .ok out →
    ∀ w ∈ out, keepWorkout b e w = true := by
  intro ms
  induction ms with
  | nil =>
    intro out h w hw
    simp only [getWorkoutsLoop, Outcome.ok.injEq] at h
    subst h
    simp at hw
  | cons m rest ih =>
    intro out h w hw
    rw [getWorkoutsLoop] at h
    cases hm : getMonthWorkoutsForRange env m.year m.month bd ed with
    | err m2 => rw [hm] at h; exact absurd h (by simp)
    | panicked p => rw [hm] at h; exact absurd h (by simp)
    | ok mwks =>
      rw [hm] at h
      simp only [] at h
      cases he : enrichFilter env b e mwks with
      | err m2 => rw [he] at h; exact absurd h (by simp)
      | panicked p => rw [he] at h; exact absurd h (by simp)
      | ok here =>
        rw [he] at h
        simp only [] at h
        cases hrest : getWorkoutsLoop env b e bd ed rest with
        | err m2 => rw [hrest] at h; exact absurd h (by simp)
        | panicked p => rw [hrest] at h; exact absurd h (by simp)
        | ok rest2 =>
          rw [hrest] at h
          simp only [Outcome.ok.injEq] at h
          subst h
          rcases List.mem_append.mp hw with h1 | h1
          · exact enrichFilter_keep env b e mwks here he w h1
          · exact ih rest2 hrest w h1

/-- C1: for `begin ≤ end`, every workout of a successful
`GetWorkouts(begin, end)` has its started-at instant inside
`[begin, end]`, both endpoints inclusive: the precise filter keeps a
workout whose start equals `begin` or equals `end`, and no workout
starting outside the interval survives it. -/
theorem getWorkouts_started_in_range (env : Env) (b e : GoTime)
    (ws : List Workout) (hbe : GoTime.le b e = true)
    (hok : getWorkouts env b e = .ok ws) :
    (∀ w ∈ ws, GoTime.le b w.startedAt = true ∧ GoTime.le w.startedAt e = true) ∧
    (∀ w : Workout, w.startedAt = b ∨ w.startedAt = e →
      keepWorkout b e w = true) := by
  constructor
  · intro w hw
    unfold getWorkouts at hok
    simp only [] at hok
    cases hl : getWorkoutsLoop env b e (toDate b) (toDate e) (months b e) with
    | err m => rw [hl] at hok; exact absurd hok (by simp)
    | panicked p => rw [hl] at hok; exact absurd hok (by simp)
    | ok l0 =>
      rw [hl] at hok
      simp only [Outcome.ok.injEq] at hok
      subst hok
      have hmem := (mem_sortByStartedAt w l0).mp hw
      have hkeep := getWorkoutsLoop_keep env b e (toDate b) (toDate e)
        (months b e) l0 hl w hmem
      unfold keepWorkout GoTime.after at hkeep
      simp only [Bool.not_eq_true', Bool.or_eq_false_iff] at hkeep
      unfold GoTime.le
      rw [hkeep.1, hkeep.2]
      exact ⟨rfl, rfl⟩
  · intro w hw
    have hbe2 : GoTime.before e b = false := by
      have h := hbe
      unfold GoTime.le at h
      rwa [Bool.not_eq_true'] at h
    unfold keepWorkout GoTime.after
    rcases hw with h1 | h1 <;> rw [h1]
    · rw [GoTime.before_self, hbe2]
      rfl
    · rw [GoTime.before_self, hbe2]
      rfl

/-- C1 witness: the end-to-end run against the concrete service
returns exactly `wRun`, whose start instant lies inside the requested
day, endpoints included. -/
theorem getWorkouts_started_in_range_witness :
    GoTime.le bRun wRun.startedAt = true ∧
    GoTime.le wRun.startedAt eRun = true := by
  have hloop : monthsLoop (monthKey bRun) (monthKey eRun) = [] := by
    have h0 := monthsLoop_eq 0 (monthKey bRun)
    simp only [Nat.cast_zero, add_zero, List.range_zero, List.map_nil] at h0
    rw [show monthKey eRun = monthKey bRun from by decide]
    exact h0
  have hmonths : months bRun eRun = [firstOfMonth (monthKey bRun)] := by
    show firstOfMonth (monthKey bRun) ::
      monthsLoop (monthKey bRun) (monthKey eRun) = [firstOfMonth (monthKey bRun)]
    rw [hloop]
  have hok : getWorkouts envRun bRun eRun = .ok [wRun] := by
    unfold getWorkouts
    rw [hmonths]
    rfl
  have h := getWorkouts_started_in_range envRun bRun eRun [wRun]
    (by decide) hok
  exact h.1 wRun (by simp)

end Mapmyride
